import Mathlib

/-!
# A shallow embedding of the namespaceclass-operator reconciliation engine

This file embeds the Go source of the namespaceclass operator
(`internal/controller/namespace_controller.go`,
`internal/controller/namespaceclassbinding_controller.go`,
`internal/controller/namespaceclassbinding.go`,
`api/v1alpha1/namespaceclassbinding_types.go`) into Lean.

The source tree contains two historical versions of the binding controller:
the one whose `Reconcile` manages conditions and calls `pruneResources`
(embedded below in namespace `V1`), and the one whose `Reconcile` dispatches
to `handleNamespaceClassDeleted` / `handleClassSwitch` /
`handleNamespaceClassUpdate` (namespace `V2`).

Modelling decisions:
* Remote-store interactions (get / delete / server-side-apply patch / status
  patch) are oracles supplied in an environment record; a reconciliation pass
  is a pure function of the fetched objects and these oracles, and returns the
  ordered trace of store mutations it issued.
* A `runtime.RawExtension` manifest entry is modelled by the outcome of its
  JSON decoding: either empty (no `Raw` bytes and no `Object`), malformed
  (undecodable), or a decoded object carrying its identity fields
  (apiVersion / kind / metadata.name, each possibly the empty string).
  Non-identity payload fields do not influence any property proved here and
  are omitted.
* Go byte-lengths of strings are modelled as character counts
  (`String.data.length`); the two agree on all ASCII data, in particular on
  every classifier keyword the code uses.
-/

/-- `api/v1alpha1`: `AppliedResource` tracks a resource that was applied to
the namespace (apiVersion, kind, name). -/
structure AppliedResource where
  apiVersion : String
  kind : String
  name : String
deriving DecidableEq, Repr

/-- A `metav1.Condition` restricted to the fields the controller reads and
writes (type, boolean status, reason, message). -/
structure Condition where
  ctype : String
  status : Bool
  reason : String
  message : String
deriving DecidableEq, Repr

/-- `api/v1alpha1`: `NamespaceClassBindingStatus`. -/
structure BindingStatus where
  observedClassName : String
  observedClassGeneration : Int
  appliedResources : List AppliedResource
  conditions : List Condition
deriving DecidableEq, Repr

/-- `api/v1alpha1`: `NamespaceClassBinding` (name, namespace, spec.className,
status). -/
structure NamespaceClassBinding where
  name : String
  ns : String
  className : String
  status : BindingStatus
deriving DecidableEq, Repr

/-- A `runtime.RawExtension` entry of `NamespaceClass.spec.resources`,
modelled by the outcome of decoding it (see the header comment). -/
inductive RawExt where
  | empty
  | malformed (msg : String)
  | obj (apiVersion kind name : String)
deriving DecidableEq, Repr

/-- `api/v1alpha1`: `NamespaceClass` (cluster-scoped: name, store-maintained
generation, ordered resource list). -/
structure NamespaceClass where
  name : String
  generation : Int
  resources : List RawExt
deriving DecidableEq, Repr

/-- Result of a `client.Delete` call against the store. -/
inductive DeleteResult where
  | ok
  | notFound
  | fail (msg : String)
deriving DecidableEq, Repr

/-- Result of a `client.Get` call against the store. -/
inductive GetResult (α : Type) where
  | found (a : α)
  | notFound
  | err (msg : String)
deriving DecidableEq, Repr

/-! ## Shared helpers (`namespaceclassbinding.go`, both controller versions) -/

/-- `indexIgnoreCase`'s underlying substring search: index of the first
occurrence of `sub` in `s` (`strings.Index` semantics), `none` if absent. -/
def findSub : List Char → List Char → Option Nat
  | s, sub =>
    if sub.isPrefixOf s then some 0
    else
      match s with
      | [] => none
      | _ :: t => (findSub t sub).map (· + 1)

/-- `indexIgnoreCase` performs case-insensitive substring search
(`strings.Index` on lower-cased inputs, `-1` when absent). -/
def indexIgnoreCase (s substr : String) : Int :=
  match findSub (s.data.map Char.toLower) (substr.data.map Char.toLower) with
  | some n => (n : Int)
  | none => -1

/-- `contains` checks if `substr` is in `s`, ignoring case (verbatim from the
source: `len(s) >= len(substr) && (s == substr || len(substr) == 0 ||
(len(s) > len(substr) && indexIgnoreCase(s, substr) >= 0))`). -/
def contains (s substr : String) : Bool :=
  decide (s.data.length ≥ substr.data.length) &&
    (s == substr || substr.data.length == 0 ||
      (decide (s.data.length > substr.data.length) &&
        decide (indexIgnoreCase s substr ≥ 0)))

/-- `resourceKey` creates a unique key for a resource (version-1 controller:
`apiVersion + "/" + kind + "/" + name`). -/
def resourceKey (apiVersion kind name : String) : String :=
  apiVersion ++ "/" ++ kind ++ "/" ++ name

/-- `getKey` creates a unique key for a resource (version-2 controller:
`apiVersion + "|" + kind + "|" + name`). -/
def getKey (apiVersion kind name : String) : String :=
  apiVersion ++ "|" ++ kind ++ "|" ++ name

/-- `extractMetaOnly` extracts apiVersion, kind and name from a raw resource;
empty input yields empty fields without error, undecodable input yields the
decode error. -/
def extractMetaOnly : RawExt → Except String (String × String × String)
  | .empty => .ok ("", "", "")
  | .malformed m => .error m
  | .obj a k n => .ok (a, k, n)

/-- `extractMetadata` (version-1 controller) has the same observable
behaviour as `extractMetaOnly`: meta triple on success, error on undecodable
input, empty triple on empty input. -/
def extractMetadata : RawExt → Except String (String × String × String) :=
  extractMetaOnly

/-- `parseResource` (version-1 controller) converts a raw entry into an
object: empty entries and entries missing any identity field become `none`
(skipped silently); undecodable entries are errors. -/
def parseResource : RawExt → Except String (Option AppliedResource)
  | .empty => .ok none
  | .malformed m => .error ("unmarshal: " ++ m)
  | .obj a k n =>
    if a = "" ∨ k = "" ∨ n = "" then .ok none else .ok (some ⟨a, k, n⟩)

/-! ## Prune / delete machinery

Each deletion loop returns the ordered list of resources for which a
`client.Delete` call was issued, together with `none` on completion or the
error that aborted the loop. A `notFound` delete result is ignored
(`err != nil && !errors.IsNotFound(err)`). -/

/-- The shared deletion loop of `pruneResources` (version 1, key
`resourceKey`, error text `failed to delete <kind>/<name>: <err>`) and
`pruneRemovedResources` (version 2, key `getKey`, error text
`failed to delete old resource <kind>/<name>: <err>`): delete every
previously applied resource whose key is absent from `desired`. -/
def pruneLoop (del : AppliedResource → DeleteResult)
    (keyOf : AppliedResource → String) (errText : String)
    (desired : List String) :
    List AppliedResource → List AppliedResource × Option String
  | [] => ([], none)
  | r :: rest =>
    if desired.contains (keyOf r) then
      pruneLoop del keyOf errText desired rest
    else
      match del r with
      | .fail m =>
        ([r], some (errText ++ r.kind ++ "/" ++ r.name ++ ": " ++ m))
      | _ =>
        let (ds, e) := pruneLoop del keyOf errText desired rest
        (r :: ds, e)

/-- Version-1 `pruneResources`: the desired-key set is built from the class's
resource list, silently skipping entries with a decode error or an empty
identity field. -/
def desiredKeys (resources : List RawExt) : List String :=
  resources.filterMap fun raw =>
    match extractMetadata raw with
    | .error _ => none
    | .ok (a, k, n) =>
      if a = "" || k = "" || n = "" then none else some (resourceKey a k n)

/-- Version-1 `pruneResources`: removes resources that are no longer in the
desired state. -/
def pruneResources (del : AppliedResource → DeleteResult)
    (binding : NamespaceClassBinding) (cls : NamespaceClass) :
    List AppliedResource × Option String :=
  pruneLoop del (fun r => resourceKey r.apiVersion r.kind r.name)
    "failed to delete " (desiredKeys cls.resources)
    binding.status.appliedResources

/-- Version-2 `pruneRemovedResources` builds its desired index strictly: a
decode error or an empty identity field in any entry aborts with
`invalid resource in NamespaceClass ...`. -/
def desiredKeysStrict (className : String) : List RawExt → Except String (List String)
  | [] => .ok []
  | raw :: rest =>
    match extractMetaOnly raw with
    | .error e =>
      .error ("invalid resource in NamespaceClass \x22" ++ className ++ "\x22: " ++ e)
    | .ok (a, k, n) =>
      if a = "" || k = "" || n = "" then
        .error ("invalid resource in NamespaceClass \x22" ++ className ++ "\x22: ")
      else
        (desiredKeysStrict className rest).map (getKey a k n :: ·)

/-- Version-2 `pruneRemovedResources`: removes resources that are no longer
in the desired state; aborts (issuing no deletions) when the desired index
cannot be built. -/
def pruneRemovedResources (del : AppliedResource → DeleteResult)
    (binding : NamespaceClassBinding) (cls : NamespaceClass) :
    List AppliedResource × Option String :=
  match desiredKeysStrict cls.name cls.resources with
  | .error e => ([], some e)
  | .ok desired =>
    pruneLoop del (fun r => getKey r.apiVersion r.kind r.name)
      "failed to delete old resource " desired
      binding.status.appliedResources

/-- The per-resource loop of `deleteOldResources`: delete each tracked
resource in order; `notFound` is success, any other failure aborts. -/
def deleteLoop (del : AppliedResource → DeleteResult) :
    List AppliedResource → List AppliedResource × Option String
  | [] => ([], none)
  | r :: rest =>
    match del r with
    | .fail m =>
      ([r], some ("failed to delete " ++ r.kind ++ "/" ++ r.name ++ ": " ++ m))
    | _ =>
      let (ds, e) := deleteLoop del rest
      (r :: ds, e)

/-- `deleteOldResources` deletes every resource tracked in the binding
status (no desired-set filtering, early return on an empty list). -/
def deleteOldResources (del : AppliedResource → DeleteResult)
    (binding : NamespaceClassBinding) :
    List AppliedResource × Option String :=
  if binding.status.appliedResources.isEmpty then ([], none)
  else deleteLoop del binding.status.appliedResources

/-! ## Conditions (`apimeta` helpers and version-1 `setCondition`) -/

/-- `apimeta.FindStatusCondition`: the first condition with the given type. -/
def findStatusCondition (conds : List Condition) (t : String) : Option Condition :=
  conds.find? (fun c => c.ctype == t)

/-- `apimeta.SetStatusCondition`: replace the condition of the same type, or
append when no condition of that type exists. -/
def setStatusCondition (conds : List Condition) (c : Condition) : List Condition :=
  if (conds.find? (fun old => old.ctype == c.ctype)).isSome then
    conds.map (fun old => if old.ctype == c.ctype then c else old)
  else
    conds ++ [c]

/-- Version-1 `setCondition`: no-op when the existing condition of that type
already has the same status, reason and message; otherwise
`apimeta.SetStatusCondition`. -/
def setCondition (conds : List Condition) (t : String) (status : Bool)
    (reason message : String) : List Condition :=
  match findStatusCondition conds t with
  | some c =>
    if c.status == status && c.reason == reason && c.message == message then
      conds
    else
      setStatusCondition conds ⟨t, status, reason, message⟩
  | none => setStatusCondition conds ⟨t, status, reason, message⟩

/-! ## Apply machinery

Both `applyResources` versions force the object's namespace to the binding's
namespace and attach a controller owner reference before upserting; neither
step changes the (apiVersion, kind, name) identity, so the upsert oracle
`patch` is keyed by that identity and its result models the combined
set-owner-reference-and-patch step (`none` is success, `some e` the error
message that aborts the pass). -/

/-- Version-1 `applyResources` (plain server-side apply with forced
ownership): parse each entry, skip empty/incomplete ones silently, upsert
the rest in list order; the first failure aborts. Returns the accumulated
`AppliedResource` descriptors of the successful upserts. -/
def applyResourcesV1 (patch : AppliedResource → Option String) :
    List RawExt → List AppliedResource × Option String
  | [] => ([], none)
  | raw :: rest =>
    match parseResource raw with
    | .error e => ([], some e)
    | .ok none => applyResourcesV1 patch rest
    | .ok (some r) =>
      match patch r with
      | some e => ([], some ("apply " ++ r.kind ++ "/" ++ r.name ++ ": " ++ e))
      | none =>
        let (as, e) := applyResourcesV1 patch rest
        (r :: as, e)

/-- Version-2 `applyResources` (upsert via the `applyResourceSSA` ladder,
here abstracted by the `patch` oracle): extract each entry's metadata
(aborting on a decode error), skip entries with an empty identity field,
upsert the rest in list order. -/
def applyResourcesV2 (patch : AppliedResource → Option String) :
    List RawExt → List AppliedResource × Option String
  | [] => ([], none)
  | raw :: rest =>
    match extractMetaOnly raw with
    | .error e => ([], some ("extract meta: " ++ e))
    | .ok (a, k, n) =>
      if a = "" || k = "" || n = "" then
        applyResourcesV2 patch rest
      else
        match patch ⟨a, k, n⟩ with
        | some e => ([], some ("apply " ++ k ++ "/" ++ n ++ ": " ++ e))
        | none =>
          let (as, e) := applyResourcesV2 patch rest
          (⟨a, k, n⟩ :: as, e)

/-! ## Reconciliation outcomes -/

/-- The content of one binding-status write (the mutation passed to
`updateStatus` / `patchBindingStatus`, applied under optimistic-conflict
retry). `condsOnly` writes only `status.conditions`; `v1Full` writes
observed class name, observed class generation, applied resources and
conditions; `v2Full` writes the same minus conditions. -/
inductive StatusWrite where
  | condsOnly (conds : List Condition)
  | v1Full (observedClassName : String) (observedClassGeneration : Int)
      (applied : List AppliedResource) (conds : List Condition)
  | v2Full (observedClassName : String) (observedClassGeneration : Int)
      (applied : List AppliedResource)
deriving DecidableEq, Repr

/-- One store mutation or signal issued by a reconciliation pass, in
program order. -/
inductive StoreAction where
  | delRes (r : AppliedResource)
  | applyRes (r : AppliedResource)
  | delBinding
  | statusWrite (w : StatusWrite)
  | event (name : String)
deriving DecidableEq, Repr

/-- The observable outcome of one reconciliation pass: the ordered trace of
store mutations and emitted events, and the error returned to the framework
(`none` = success). -/
structure Outcome where
  trace : List StoreAction
  err : Option String
deriving DecidableEq, Repr

/-- The environment of one binding-reconciler pass: the fetch results and
store oracles consumed by the pass. -/
structure BindingEnv where
  /-- `r.Get` on the request's `NamespaceClassBinding`. -/
  getBinding : GetResult NamespaceClassBinding
  /-- `r.Get` on the referenced `NamespaceClass`. -/
  getClass : GetResult NamespaceClass
  /-- `r.Delete` on a managed resource, keyed by identity. -/
  del : AppliedResource → DeleteResult
  /-- The upsert (server-side-apply) step on a managed resource. -/
  patch : AppliedResource → Option String
  /-- `r.Delete` on the binding itself. -/
  delBinding : DeleteResult
  /-- Final result of the retrying status writer
  (`updateStatus` / `patchBindingStatus`). -/
  statusResult : Option String

namespace V1

/-- Version-1 `Reconcile` (the controller whose status commit also manages
the `Ready` condition): fetch binding and class, handle the class-not-found
path (condition write, then binding deletion), skip when observed name and
generation are up to date, otherwise prune, apply, and commit status. -/
def Reconcile (env : BindingEnv) : Outcome :=
  match env.getBinding with
  | .notFound => { trace := [], err := none }
  | .err e => { trace := [], err := some e }
  | .found binding =>
    match env.getClass with
    | .err e => { trace := [], err := some e }
    | .notFound =>
      let conds := setCondition binding.status.conditions "Ready" false
        "ClassNotFound" ("NamespaceClass " ++ binding.className ++ " not found")
      { trace := [.statusWrite (.condsOnly conds), .delBinding],
        err := match env.delBinding with | .fail m => some m | _ => none }
    | .found cls =>
      if binding.status.observedClassGeneration == cls.generation &&
          binding.status.observedClassName == cls.name then
        { trace := [], err := none }
      else
        let (dels, pruneErr) := pruneResources env.del binding cls
        match pruneErr with
        | some e =>
          let conds := setCondition binding.status.conditions "Ready" false
            "PruneFailed" ("Failed to prune resources: " ++ e)
          { trace := dels.map StoreAction.delRes ++
              [.statusWrite (.condsOnly conds)],
            err := some e }
        | none =>
          let (aps, applyErr) := applyResourcesV1 env.patch cls.resources
          match applyErr with
          | some e =>
            let conds := setCondition binding.status.conditions "Ready" false
              "ApplyFailed" ("Failed to apply resources: " ++ e)
            { trace := dels.map StoreAction.delRes ++
                aps.map StoreAction.applyRes ++
                [.statusWrite (.condsOnly conds)],
              err := some e }
          | none =>
            let conds := setCondition binding.status.conditions "Ready" true
              "ReconcileSuccess" ("Successfully applied " ++
                toString aps.length ++ " resources from class " ++ cls.name)
            let w := StatusWrite.v1Full cls.name cls.generation aps conds
            match env.statusResult with
            | some e =>
              { trace := dels.map StoreAction.delRes ++
                  aps.map StoreAction.applyRes ++ [.statusWrite w],
                err := some e }
            | none =>
              { trace := dels.map StoreAction.delRes ++
                  aps.map StoreAction.applyRes ++
                  [.statusWrite w, .event "ReconcileSucceeded"],
                err := none }

end V1

namespace V2

/-- Version-2 `needsUpdate`: the binding needs work when the observed
generation differs from the class's, or the observed class name differs
from the binding's *desired* class name (`spec.className`). -/
def needsUpdate (binding : NamespaceClassBinding) (cls : NamespaceClass) : Bool :=
  binding.status.observedClassGeneration != cls.generation ||
    binding.status.observedClassName != binding.className

/-- Modelled from the spec: `isClassSwitch` is called by the version-2
`Reconcile` and exercised by its tests, but its definition is not among the
provided source files. Per the spec (§4.2): a switch holds exactly when the
binding's observed class name is non-empty, the binding has a non-empty
applied-resource set, and the observed name differs from the current class's
name. (The provided table-driven test agrees on all four of its rows.) -/
def isClassSwitch (binding : NamespaceClassBinding) (cls : NamespaceClass) : Bool :=
  binding.status.observedClassName != "" &&
    !binding.status.appliedResources.isEmpty &&
    binding.status.observedClassName != cls.name

/-- Modelled from the spec: `handleClassSwitch` is called by the version-2
`Reconcile` but its definition is not among the provided source files. Per
the spec (§4.2), on a switch it deletes all currently applied resources
before the new class's resource list is evaluated, emitting no events (the
provided test checks that no event is recorded); this is exactly the
behaviour of the in-source `deleteOldResources`. -/
def handleClassSwitch (env : BindingEnv) (binding : NamespaceClassBinding) :
    List AppliedResource × Option String :=
  deleteOldResources env.del binding

/-- Version-2 `handleNamespaceClassDeleted`: clean up every tracked resource
(best effort, `notFound` is success), then delete the binding itself, then
record a `CleanedUp` event. -/
def handleNamespaceClassDeleted (env : BindingEnv)
    (binding : NamespaceClassBinding) : Outcome :=
  let (ds, e) := deleteOldResources env.del binding
  match e with
  | some m => { trace := ds.map StoreAction.delRes, err := some m }
  | none =>
    match env.delBinding with
    | .fail m =>
      { trace := ds.map StoreAction.delRes ++ [.delBinding], err := some m }
    | _ =>
      { trace := ds.map StoreAction.delRes ++ [.delBinding, .event "CleanedUp"],
        err := none }

/-- Version-2 `handleNamespaceClassUpdate`: prune removed resources, apply
the class's resource list, then patch the binding status (observed class
name, observed generation, applied resources) and record a
`ReconcileSucceeded` event. -/
def handleNamespaceClassUpdate (env : BindingEnv)
    (binding : NamespaceClassBinding) (cls : NamespaceClass) : Outcome :=
  let (ds, pruneErr) := pruneRemovedResources env.del binding cls
  match pruneErr with
  | some e => { trace := ds.map StoreAction.delRes, err := some e }
  | none =>
    let (aps, applyErr) := applyResourcesV2 env.patch cls.resources
    match applyErr with
    | some e =>
      { trace := ds.map StoreAction.delRes ++ aps.map StoreAction.applyRes,
        err := some e }
    | none =>
      let w := StatusWrite.v2Full cls.name cls.generation aps
      match env.statusResult with
      | some e =>
        { trace := ds.map StoreAction.delRes ++
            aps.map StoreAction.applyRes ++ [.statusWrite w],
          err := some e }
      | none =>
        { trace := ds.map StoreAction.delRes ++
            aps.map StoreAction.applyRes ++
            [.statusWrite w, .event "ReconcileSucceeded"],
          err := none }

/-- Version-2 `Reconcile`: fetch binding and class; on a missing class run
the cleanup path; on a class switch delete all applied resources first and
then always run the update path; otherwise run the update path only when
`needsUpdate` holds. -/
def Reconcile (env : BindingEnv) : Outcome :=
  match env.getBinding with
  | .notFound => { trace := [], err := none }
  | .err e => { trace := [], err := some e }
  | .found binding =>
    match env.getClass with
    | .notFound => handleNamespaceClassDeleted env binding
    | .err e => { trace := [], err := some e }
    | .found cls =>
      if isClassSwitch binding cls then
        let (ds, e) := handleClassSwitch env binding
        match e with
        | some m => { trace := ds.map StoreAction.delRes, err := some m }
        | none =>
          let o := handleNamespaceClassUpdate env binding cls
          { trace := ds.map StoreAction.delRes ++ o.trace, err := o.err }
      else if needsUpdate binding cls then
        handleNamespaceClassUpdate env binding cls
      else
        { trace := [], err := none }

end V2

/-! ## The server-side-apply conflict ladder (`applyResourceSSA`) -/

/-- A store error as the classifiers see it: its message text and whether
`errors.IsConflict` holds for it (a status-reason check, independent of the
message text). -/
structure ApiError where
  msg : String
  k8sConflict : Bool
deriving DecidableEq, Repr

/-- `isFieldManagerConflict`: `errors.IsConflict(err) || (err != nil &&
(contains(err.Error(), "conflict") || contains(err.Error(), "field manager")))`. -/
def isFieldManagerConflict : Option ApiError → Bool
  | none => false
  | some e =>
    e.k8sConflict || contains e.msg "conflict" || contains e.msg "field manager"

/-- `isImmutableFieldError`: false for nil, otherwise a case-insensitive
message scan for `immutable`, `cannot be modified`, `field is immutable`. -/
def isImmutableFieldError : Option ApiError → Bool
  | none => false
  | some e =>
    contains e.msg "immutable" || contains e.msg "cannot be modified" ||
      contains e.msg "field is immutable"

/-- One `metav1.OwnerReference` restricted to the fields
`isControllerOwned` inspects. -/
structure OwnerReference where
  apiVersion : String
  kind : String
  controller : Option Bool
deriving DecidableEq, Repr

/-- The store oracles consumed by one `applyResourceSSA` invocation (each
tier's remote call, in the order the ladder can reach them). Errors built
by `fmt.Errorf` inside `recreateResource` are plain wrapped errors, modelled
with `k8sConflict := false`. -/
structure SSAEnv where
  /-- First apply: `client.Apply` with field owner, no forced ownership. -/
  patchNoForce : Option ApiError
  /-- Second apply: same patch with `client.ForceOwnership`. -/
  patchForce : Option ApiError
  /-- `r.Get` read-back of the existing object's owner references. -/
  getCurrent : GetResult (List OwnerReference)
  /-- `r.Delete` of the existing object. -/
  delRes : DeleteResult
  /-- `waitForDeletion` (`none` = object gone within the bound). -/
  waitResult : Option String
  /-- Final re-create apply. -/
  patchCreate : Option ApiError

/-- The remote calls an `applyResourceSSA` invocation can issue, in
program order. -/
inductive SSAStep where
  | applyNoForce
  | applyForce
  | readBack
  | deleteExisting
  | waitDelete
  | applyCreate
deriving DecidableEq, Repr

/-- `isControllerOwned`: read the current object back; any `Get` failure
(including not-found) means ownership is not confirmed; otherwise scan the
owner references for a `NamespaceClassBinding` of `akuity.io/v1alpha1`
marked as controller. -/
def isControllerOwned : GetResult (List OwnerReference) → Bool
  | .found owners =>
    owners.any fun o =>
      o.apiVersion == "akuity.io/v1alpha1" &&
        o.kind == "NamespaceClassBinding" && o.controller == some true
  | .notFound => false
  | .err _ => false

/-- `recreateResource`: refuse (with an explicit error and no store
mutation) unless ownership is confirmed; otherwise delete the object
(`notFound` ok), wait for its disappearance, and re-apply it. Returns the
ordered remote calls issued and the resulting error. -/
def recreateResource (env : SSAEnv) (u : AppliedResource) :
    List SSAStep × Option ApiError :=
  if !(isControllerOwned env.getCurrent) then
    ([.readBack],
      some ⟨"cannot recreate resource " ++ u.kind ++ "/" ++ u.name ++
        ": not owned by this controller", false⟩)
  else
    match env.delRes with
    | .fail m =>
      ([.readBack, .deleteExisting],
        some ⟨"failed to delete resource for recreation: " ++ m, false⟩)
    | _ =>
      match env.waitResult with
      | some m =>
        ([.readBack, .deleteExisting, .waitDelete],
          some ⟨"failed waiting for resource deletion: " ++ m, false⟩)
      | none =>
        ([.readBack, .deleteExisting, .waitDelete, .applyCreate],
          env.patchCreate)

/-- `applyResourceSSA`: apply without forced ownership; on a field-manager
conflict retry with forced ownership; on an immutable-field error recreate;
return any other error unmodified. Returns the ordered remote calls issued
and the resulting error. -/
def applyResourceSSA (env : SSAEnv) (u : AppliedResource) :
    List SSAStep × Option ApiError :=
  match env.patchNoForce with
  | none => ([.applyNoForce], none)
  | some e =>
    if isFieldManagerConflict (some e) then
      ([.applyNoForce, .applyForce], env.patchForce)
    else if isImmutableFieldError (some e) then
      let (tr, res) := recreateResource env u
      (.applyNoForce :: tr, res)
    else
      ([.applyNoForce], some e)

/-! ## The Namespace Watcher (`namespace_controller.go`) -/

/-- The label key naming the desired class
(`namespaceclass.akuity.io/name`). -/
def labelNamespaceClass : String := "namespaceclass.akuity.io/name"

/-- A `corev1.Namespace` restricted to what the watcher reads: name, label
map, and whether its deletion timestamp is set. -/
structure NamespaceObj where
  name : String
  labels : List (String × String)
  beingDeleted : Bool
deriving DecidableEq, Repr

/-- Label lookup (`namespace.Labels[labelNamespaceClass]`, empty when the
label map is nil or the key is absent). -/
def labelValue (labels : List (String × String)) (key : String) : String :=
  match labels.find? (fun p => p.1 == key) with
  | some p => p.2
  | none => ""

/-- The single binding mutation a watcher pass issues (if any). A created
binding carries its name, namespace, desired class name and the namespace
set as its controller owner; an update rewrites `spec.className` in place on
the existing binding object. -/
inductive NsAction where
  | noop
  | deleteBinding
  | createBinding (name ns className ownerNs : String)
  | updateBinding (className : String)
deriving DecidableEq, Repr

/-- Environment of one watcher pass: the namespace fetch and the binding
fetch (`none` models any failed `Get`, which the source treats as
`bindingExists = false`). -/
structure NsEnv where
  getNamespace : GetResult NamespaceObj
  getBinding : Option NamespaceClassBinding

/-- The Namespace Watcher's `Reconcile`, reduced to the binding mutation it
decides on (fetch errors return an error to the framework having taken no
action, modelled as `noop`). The source's four sequential guards on
`(desiredClass, bindingExists)` are rendered as the equivalent case split on
the binding fetch. -/
def namespaceReconcile (env : NsEnv) : NsAction :=
  match env.getNamespace with
  | .notFound => .noop
  | .err _ => .noop
  | .found nsObj =>
    if nsObj.beingDeleted then .noop
    else
      let desiredClass := labelValue nsObj.labels labelNamespaceClass
      match env.getBinding with
      | none =>
        if desiredClass == "" then .noop
        else .createBinding nsObj.name nsObj.name desiredClass nsObj.name
      | some b =>
        if desiredClass == "" then .deleteBinding
        else if b.className != desiredClass then .updateBinding desiredClass
        else .noop

/-- The watcher decision table exactly as the specification words it
(spec §4.1): this is the spec side of the refinement claim about the
watcher, to be compared with `namespaceReconcile`. -/
def watcherSpecAction (nsObj : NamespaceObj)
    (b : Option NamespaceClassBinding) : NsAction :=
  if nsObj.beingDeleted then .noop
  else
    let L := labelValue nsObj.labels labelNamespaceClass
    match b with
    | none =>
      if L = "" then .noop
      else .createBinding nsObj.name nsObj.name L nsObj.name
    | some bb =>
      if L = "" then .deleteBinding
      else if bb.className = L then .noop
      else .updateBinding L

/-! ## Derived notions used by the claim statements -/

/-- The resource set described by a class's resource list: the identity
descriptors of the entries `parseResource` accepts, in list order (empty
and identity-incomplete entries are skipped). -/
def describedResources (resources : List RawExt) : List AppliedResource :=
  resources.filterMap fun raw =>
    match parseResource raw with
    | .ok (some r) => some r
    | _ => none

/-- The status-write content of one store action (`none` for non-status
actions). -/
def statusWriteOfAction : StoreAction → Option StatusWrite
  | .statusWrite w => some w
  | _ => none

/-- The binding-status writes a pass issued, in order. -/
def statusWritesOf (o : Outcome) : List StatusWrite :=
  o.trace.filterMap statusWriteOfAction

/-! ## Helper lemmas -/

theorem filterMap_statusWrite_delRes (l : List AppliedResource) :
    List.filterMap (statusWriteOfAction ∘ StoreAction.delRes) l = [] := by
  induction l with
  | nil => rfl
  | cons r t ih => simp [statusWriteOfAction, ih]

theorem filterMap_statusWrite_applyRes (l : List AppliedResource) :
    List.filterMap (statusWriteOfAction ∘ StoreAction.applyRes) l = [] := by
  induction l with
  | nil => rfl
  | cons r t ih => simp [statusWriteOfAction, ih]

theorem pruneLoop_no_fail (del : AppliedResource → DeleteResult)
    (keyOf : AppliedResource → String) (errText : String)
    (desired : List String) (l : List AppliedResource)
    (h : ∀ r ∈ l, ∀ m, del r ≠ .fail m) :
    pruneLoop del keyOf errText desired l =
      (l.filter (fun r => !desired.contains (keyOf r)), none) := by
  induction l with
  | nil => simp [pruneLoop]
  | cons r rest ih =>
    have hr := h r (List.mem_cons_self r rest)
    have hrest : ∀ x ∈ rest, ∀ m, del x ≠ .fail m :=
      fun x hx => h x (List.mem_cons_of_mem r hx)
    by_cases hc : keyOf r ∈ desired
    · simp [pruneLoop, hc, ih hrest]
    · cases hdel : del r with
      | fail m => exact absurd hdel (hr m)
      | ok => simp [pruneLoop, hc, hdel, ih hrest]
      | notFound => simp [pruneLoop, hc, hdel, ih hrest]

theorem deleteLoop_no_fail (del : AppliedResource → DeleteResult)
    (l : List AppliedResource) (h : ∀ r ∈ l, ∀ m, del r ≠ .fail m) :
    deleteLoop del l = (l, none) := by
  induction l with
  | nil => simp [deleteLoop]
  | cons r rest ih =>
    have hr := h r (List.mem_cons_self r rest)
    have hrest : ∀ x ∈ rest, ∀ m, del x ≠ .fail m :=
      fun x hx => h x (List.mem_cons_of_mem r hx)
    cases hdel : del r with
    | fail m => exact absurd hdel (hr m)
    | ok => simp [deleteLoop, hdel, ih hrest]
    | notFound => simp [deleteLoop, hdel, ih hrest]

theorem deleteOldResources_no_fail (del : AppliedResource → DeleteResult)
    (binding : NamespaceClassBinding)
    (h : ∀ r ∈ binding.status.appliedResources, ∀ m, del r ≠ .fail m) :
    deleteOldResources del binding = (binding.status.appliedResources, none) := by
  unfold deleteOldResources
  by_cases he : binding.status.appliedResources.isEmpty
  · rw [List.isEmpty_iff] at he
    simp [he]
  · simp [he, deleteLoop_no_fail del _ h]

theorem applyResourcesV1_ok (patch : AppliedResource → Option String)
    (raws : List RawExt) (aps : List AppliedResource)
    (h : applyResourcesV1 patch raws = (aps, none)) :
    aps = describedResources raws := by
  induction raws generalizing aps with
  | nil =>
    simp [applyResourcesV1] at h
    simp [describedResources, h]
  | cons raw rest ih =>
    cases hp : parseResource raw with
    | error e => simp [applyResourcesV1, hp] at h
    | ok o =>
      cases o with
      | none =>
        simp only [applyResourcesV1, hp] at h
        simpa [describedResources, hp] using ih aps h
      | some r =>
        cases hq : patch r with
        | some e => simp [applyResourcesV1, hp, hq] at h
        | none =>
          cases hrec : applyResourcesV1 patch rest with
          | mk as0 e0 =>
            simp only [applyResourcesV1, hp, hq, hrec] at h
            obtain ⟨h1, h2⟩ := Prod.mk.injEq .. ▸ h
            subst h2
            simp [describedResources, hp, ← h1, ih as0 hrec]

/-- C10: on two distinct strings of equal length with the second non-empty,
the case-insensitive helper `contains` returns `false` — its substring tier
requires `s` to be strictly longer than `substr` — so an error whose entire
message is a classifier keyword in different letter case is not classified
by `isFieldManagerConflict` or `isImmutableFieldError`. -/
theorem C10_contains_equal_length_case_mismatch :
    (∀ s t : String, t ≠ "" → s ≠ t → s.data.length = t.data.length →
      contains s t = false) ∧
    isFieldManagerConflict (some ⟨"Conflict", false⟩) = false ∧
    isFieldManagerConflict (some ⟨"CONFLICT", false⟩) = false ∧
    isImmutableFieldError (some ⟨"Immutable", false⟩) = false ∧
    isImmutableFieldError (some ⟨"IMMUTABLE", false⟩) = false := by
  refine ⟨?_, by decide, by decide, by decide, by decide⟩
  intro s t ht hst hlen
  have hbeq : (s == t) = false := beq_eq_false_iff_ne.mpr hst
  have hlen0 : t.data.length ≠ 0 := by
    intro h0
    exact ht (String.ext (List.length_eq_zero.mp h0))
  simp [contains, hbeq]
  intro _
  constructor
  · intro h0
    exact hlen0 h0
  · intro hlt
    exfalso
    have hl : t.data.length < s.data.length := hlt
    omega

theorem C10_witness : contains "CONFLICT" "conflict" = false :=
  C10_contains_equal_length_case_mismatch.1 "CONFLICT" "conflict"
    (by decide) (by decide) (by decide)

/-- C2: with no hard deletion failure (not-found results are allowed and
treated as success), the prune step completes without error and issues
deletions for exactly those entries of the binding's previous
applied-resource set whose (apiVersion, kind, name) key is absent from the
desired-key set built from the class's resource list — for the version-1
`pruneResources` unconditionally, and for the version-2
`pruneRemovedResources` whenever its strict desired-index build succeeds. -/
theorem C2_prune_exact_diff (del : AppliedResource → DeleteResult)
    (binding : NamespaceClassBinding) (cls : NamespaceClass)
    (h : ∀ r m, del r ≠ .fail m) :
    pruneResources del binding cls =
      (binding.status.appliedResources.filter
        (fun r => !(desiredKeys cls.resources).contains
          (resourceKey r.apiVersion r.kind r.name)), none) ∧
    ∀ desired, desiredKeysStrict cls.name cls.resources = .ok desired →
      pruneRemovedResources del binding cls =
        (binding.status.appliedResources.filter
          (fun r => !desired.contains (getKey r.apiVersion r.kind r.name)), none) := by
  constructor
  · exact pruneLoop_no_fail del _ _ _ _ (fun r _ m => h r m)
  · intro desired hd
    unfold pruneRemovedResources
    rw [hd]
    exact pruneLoop_no_fail del _ _ _ _ (fun r _ m => h r m)

theorem C2_witness :
    pruneResources (fun _ => DeleteResult.notFound)
      ⟨"b", "team-a", "gold",
        ⟨"gold", 1,
          [⟨"v1", "ConfigMap", "old-config"⟩, ⟨"v1", "Secret", "keep-secret"⟩],
          []⟩⟩
      ⟨"gold", 2, [RawExt.obj "v1" "Secret" "keep-secret"]⟩ =
      ([⟨"v1", "ConfigMap", "old-config"⟩], none) := by
  have h := C2_prune_exact_diff (fun _ => DeleteResult.notFound)
    ⟨"b", "team-a", "gold",
      ⟨"gold", 1,
        [⟨"v1", "ConfigMap", "old-config"⟩, ⟨"v1", "Secret", "keep-secret"⟩],
        []⟩⟩
    ⟨"gold", 2, [RawExt.obj "v1" "Secret" "keep-secret"]⟩
    (by intro r m; simp)
  rw [h.1]
  decide

/-- C5: for every namespace change event whose namespace fetch succeeds, the
watcher's single binding mutation equals the specification's decision table
`watcherSpecAction` on the selector label value and the binding's existence:
no-op when the namespace is marked for deletion; no-op / delete / create
(with the namespace as owner) / in-place class-name update / no-op exactly
as the six spec cases prescribe. -/
theorem C5_watcher_action_matches_spec (env : NsEnv) (nsObj : NamespaceObj)
    (h : env.getNamespace = .found nsObj) :
    namespaceReconcile env = watcherSpecAction nsObj env.getBinding := by
  simp only [namespaceReconcile, watcherSpecAction, h]
  by_cases hd : nsObj.beingDeleted
  · simp [hd]
  · simp only [hd, Bool.false_eq_true, if_false]
    cases env.getBinding with
    | none =>
      by_cases hL : labelValue nsObj.labels labelNamespaceClass = ""
      · simp [hL]
      · simp [hL]
    | some b =>
      by_cases hL : labelValue nsObj.labels labelNamespaceClass = ""
      · simp [hL]
      · by_cases hcn : b.className = labelValue nsObj.labels labelNamespaceClass
        · simp [hL, hcn]
        · simp [hL, hcn]

theorem C5_witness :
    namespaceReconcile
      ⟨.found ⟨"team-a", [(labelNamespaceClass, "gold")], false⟩,
        some ⟨"team-a", "team-a", "silver", ⟨"", 0, [], []⟩⟩⟩ =
    watcherSpecAction ⟨"team-a", [(labelNamespaceClass, "gold")], false⟩
      (some ⟨"team-a", "team-a", "silver", ⟨"", 0, [], []⟩⟩) :=
  C5_watcher_action_matches_spec _ _ rfl

/-- C6: when the fetched class's generation and name equal the binding's
observed generation and name, the pass is a no-op — an empty mutation trace
and no error — for the version-1 `Reconcile` regardless of every store
oracle (the check is taken before any store interaction), and likewise for
the version-2 `Reconcile` whenever the fetched class's name matches the
binding's desired class name (which a fetch by that very name guarantees). -/
theorem C6_up_to_date_noop (env : BindingEnv)
    (binding : NamespaceClassBinding) (cls : NamespaceClass)
    (hb : env.getBinding = .found binding)
    (hc : env.getClass = .found cls)
    (hg : binding.status.observedClassGeneration = cls.generation)
    (hn : binding.status.observedClassName = cls.name) :
    V1.Reconcile env = { trace := [], err := none } ∧
    (cls.name = binding.className →
      V2.Reconcile env = { trace := [], err := none }) := by
  constructor
  · simp [V1.Reconcile, hb, hc, hg, hn]
  · intro hcn
    have hsw : V2.isClassSwitch binding cls = false := by
      simp [V2.isClassSwitch, hn]
    have hnu : V2.needsUpdate binding cls = false := by
      simp [V2.needsUpdate, hg, hn, hcn]
    simp [V2.Reconcile, hb, hc, hsw, hnu]

theorem C6_witness :
    V1.Reconcile
      ⟨.found ⟨"b", "team-a", "gold", ⟨"gold", 3, [⟨"v1", "ConfigMap", "a"⟩], []⟩⟩,
        .found ⟨"gold", 3, [RawExt.obj "v1" "ConfigMap" "a"]⟩,
        fun _ => .fail "store down", fun _ => some "store down",
        .fail "store down", some "store down"⟩ = { trace := [], err := none } ∧
    V2.Reconcile
      ⟨.found ⟨"b", "team-a", "gold", ⟨"gold", 3, [⟨"v1", "ConfigMap", "a"⟩], []⟩⟩,
        .found ⟨"gold", 3, [RawExt.obj "v1" "ConfigMap" "a"]⟩,
        fun _ => .fail "store down", fun _ => some "store down",
        .fail "store down", some "store down"⟩ = { trace := [], err := none } := by
  have h := C6_up_to_date_noop
    ⟨.found ⟨"b", "team-a", "gold", ⟨"gold", 3, [⟨"v1", "ConfigMap", "a"⟩], []⟩⟩,
      .found ⟨"gold", 3, [RawExt.obj "v1" "ConfigMap" "a"]⟩,
      fun _ => .fail "store down", fun _ => some "store down",
      .fail "store down", some "store down"⟩
    ⟨"b", "team-a", "gold", ⟨"gold", 3, [⟨"v1", "ConfigMap", "a"⟩], []⟩⟩
    ⟨"gold", 3, [RawExt.obj "v1" "ConfigMap" "a"]⟩ rfl rfl rfl rfl
  exact ⟨h.1, h.2 rfl⟩

theorem recreate_trace_cases (env : SSAEnv) (u : AppliedResource) :
    (recreateResource env u).1 = [.readBack] ∨
    (recreateResource env u).1 = [.readBack, .deleteExisting] ∨
    (recreateResource env u).1 = [.readBack, .deleteExisting, .waitDelete] ∨
    (recreateResource env u).1 =
      [.readBack, .deleteExisting, .waitDelete, .applyCreate] := by
  unfold recreateResource
  by_cases h : isControllerOwned env.getCurrent <;>
    cases env.delRes <;> cases env.waitResult <;> simp [h]

/-- C7: the upsert ladder always issues the unforced apply first; it issues
the forced apply exactly when the first attempt failed with a field-manager
conflict (and then returns the forced attempt's result); it reaches the
delete-and-recreate tier only when the first attempt failed with an
immutable-field error; and an error matching neither class is returned
unmodified with no further remote call. -/
theorem C7_ssa_ladder (env : SSAEnv) (u : AppliedResource) :
    (applyResourceSSA env u).1.head? = some .applyNoForce ∧
    (SSAStep.applyForce ∈ (applyResourceSSA env u).1 ↔
      isFieldManagerConflict env.patchNoForce = true) ∧
    (SSAStep.readBack ∈ (applyResourceSSA env u).1 ∨
      SSAStep.deleteExisting ∈ (applyResourceSSA env u).1 →
      isImmutableFieldError env.patchNoForce = true) ∧
    (∀ e, env.patchNoForce = some e →
      isFieldManagerConflict (some e) = true →
      applyResourceSSA env u = ([.applyNoForce, .applyForce], env.patchForce)) ∧
    (∀ e, env.patchNoForce = some e →
      isFieldManagerConflict (some e) = false →
      isImmutableFieldError (some e) = false →
      applyResourceSSA env u = ([.applyNoForce], some e)) := by
  cases hp : env.patchNoForce with
  | none =>
    have hres : applyResourceSSA env u = ([.applyNoForce], none) := by
      simp [applyResourceSSA, hp]
    refine ⟨by rw [hres]; rfl, ?_, ?_, ?_, ?_⟩
    · rw [hres]
      simp [isFieldManagerConflict]
    · rw [hres]
      rintro (h | h) <;> simp at h
    · intro e he
      exact absurd he (by simp)
    · intro e he
      exact absurd he (by simp)
  | some e =>
    by_cases hf : isFieldManagerConflict (some e) = true
    · have hres : applyResourceSSA env u =
          ([.applyNoForce, .applyForce], env.patchForce) := by
        simp [applyResourceSSA, hp, hf]
      refine ⟨by rw [hres]; rfl, ?_, ?_, ?_, ?_⟩
      · rw [hres]
        simp [hf]
      · rw [hres]
        rintro (h | h) <;> simp at h
      · intro e' he' _
        cases he'
        exact hres
      · intro e' he' hf' _
        cases he'
        rw [hf'] at hf
        exact absurd hf (by simp)
    · rw [Bool.not_eq_true] at hf
      by_cases hi : isImmutableFieldError (some e) = true
      · cases hre : recreateResource env u with
        | mk tr res =>
          have hres : applyResourceSSA env u = (.applyNoForce :: tr, res) := by
            simp [applyResourceSSA, hp, hf, hi, hre]
          have htr := recreate_trace_cases env u
          rw [hre] at htr
          refine ⟨by rw [hres]; rfl, ?_, ?_, ?_, ?_⟩
          · rw [hres, hf]
            simp only [iff_false, Bool.false_eq_true]
            intro hmem
            rcases htr with h | h | h | h <;> subst h <;> simp at hmem
          · rw [hres]
            exact fun _ => hi
          · intro e' he' hf'
            cases he'
            rw [hf'] at hf
            exact absurd hf (by simp)
          · intro e' he' _ hi'
            cases he'
            rw [hi'] at hi
            exact absurd hi (by simp)
      · rw [Bool.not_eq_true] at hi
        have hres : applyResourceSSA env u = ([.applyNoForce], some e) := by
          simp [applyResourceSSA, hp, hf, hi]
        refine ⟨by rw [hres]; rfl, ?_, ?_, ?_, ?_⟩
        · rw [hres, hf]
          simp
        · rw [hres]
          rintro (h | h) <;> simp at h
        · intro e' he' hf'
          cases he'
          rw [hf'] at hf
          exact absurd hf (by simp)
        · intro e' he' _ _
          cases he'
          exact hres

theorem C7_witness :
    applyResourceSSA
      ⟨some ⟨"request denied by quota", false⟩, none, .notFound, .ok, none, none⟩
      ⟨"v1", "ConfigMap", "a"⟩ =
      ([.applyNoForce], some ⟨"request denied by quota", false⟩) :=
  (C7_ssa_ladder
      ⟨some ⟨"request denied by quota", false⟩, none, .notFound, .ok, none, none⟩
      ⟨"v1", "ConfigMap", "a"⟩).2.2.2.2
    ⟨"request denied by quota", false⟩ rfl (by decide) (by decide)

/-- C8: the recreate tier deletes the existing object only when the
read-back confirms this controller as the owning controller; when ownership
is not confirmed — in particular when the read-back itself fails — it
returns an explicit error having issued no deletion. -/
theorem C8_recreate_fail_closed (env : SSAEnv) (u : AppliedResource) :
    (isControllerOwned env.getCurrent = false →
      recreateResource env u =
        ([.readBack],
          some ⟨"cannot recreate resource " ++ u.kind ++ "/" ++ u.name ++
            ": not owned by this controller", false⟩)) ∧
    (SSAStep.deleteExisting ∈ (recreateResource env u).1 →
      isControllerOwned env.getCurrent = true) ∧
    (∀ m, env.getCurrent = .err m →
      SSAStep.deleteExisting ∉ (recreateResource env u).1 ∧
      (recreateResource env u).2.isSome) := by
  refine ⟨?_, ?_, ?_⟩
  · intro h
    simp [recreateResource, h]
  · intro hmem
    by_cases ho : isControllerOwned env.getCurrent
    · exact ho
    · rw [Bool.not_eq_true] at ho
      have : recreateResource env u =
          ([.readBack],
            some ⟨"cannot recreate resource " ++ u.kind ++ "/" ++ u.name ++
              ": not owned by this controller", false⟩) := by
        simp [recreateResource, ho]
      rw [this] at hmem
      simp at hmem
  · intro m hm
    have ho : isControllerOwned env.getCurrent = false := by
      rw [hm]
      rfl
    have : recreateResource env u =
        ([.readBack],
          some ⟨"cannot recreate resource " ++ u.kind ++ "/" ++ u.name ++
            ": not owned by this controller", false⟩) := by
      simp [recreateResource, ho]
    rw [this]
    simp

theorem C8_witness :
    SSAStep.deleteExisting ∉
      (recreateResource
        ⟨none, none, .err "connection refused", .ok, none, none⟩
        ⟨"v1", "Service", "web"⟩).1 ∧
    (recreateResource
        ⟨none, none, .err "connection refused", .ok, none, none⟩
        ⟨"v1", "Service", "web"⟩).2.isSome :=
  (C8_recreate_fail_closed
      ⟨none, none, .err "connection refused", .ok, none, none⟩
      ⟨"v1", "Service", "web"⟩).2.2 "connection refused" rfl

/-- C3: on a class switch (non-empty observed class name, non-empty
applied-resource set, observed name differing from the fetched class's
name), the version-2 pass first issues a deletion for every currently
applied resource, and only then runs the update handler that evaluates the
new class's resource list — so an old resource whose key collides with a
new one is deleted before any apply. The trace equality places the
deletions of all previously applied resources strictly before the whole
update-handler trace (which contains every apply). Stated under the
assumption that no deletion fails hard (not-found results are allowed). -/
theorem C3_switch_deletes_before_apply (env : BindingEnv)
    (binding : NamespaceClassBinding) (cls : NamespaceClass)
    (hb : env.getBinding = .found binding)
    (hc : env.getClass = .found cls)
    (hsw : V2.isClassSwitch binding cls = true)
    (hdel : ∀ r m, env.del r ≠ .fail m) :
    (V2.Reconcile env).trace =
      binding.status.appliedResources.map StoreAction.delRes ++
        (V2.handleNamespaceClassUpdate env binding cls).trace ∧
    (V2.Reconcile env).err = (V2.handleNamespaceClassUpdate env binding cls).err := by
  have hold : deleteOldResources env.del binding =
      (binding.status.appliedResources, none) :=
    deleteOldResources_no_fail env.del binding (fun r _ m => hdel r m)
  constructor <;>
    simp [V2.Reconcile, hb, hc, hsw, V2.handleClassSwitch, hold]

theorem C3_witness :
    (V2.Reconcile
      ⟨.found ⟨"b", "team-a", "new",
          ⟨"old", 4, [⟨"v1", "ConfigMap", "shared"⟩], []⟩⟩,
        .found ⟨"new", 1, [RawExt.obj "v1" "ConfigMap" "shared"]⟩,
        fun _ => .ok, fun _ => none, .ok, none⟩).trace =
      [StoreAction.delRes ⟨"v1", "ConfigMap", "shared"⟩] ++
        (V2.handleNamespaceClassUpdate
          ⟨.found ⟨"b", "team-a", "new",
              ⟨"old", 4, [⟨"v1", "ConfigMap", "shared"⟩], []⟩⟩,
            .found ⟨"new", 1, [RawExt.obj "v1" "ConfigMap" "shared"]⟩,
            fun _ => .ok, fun _ => none, .ok, none⟩
          ⟨"b", "team-a", "new",
            ⟨"old", 4, [⟨"v1", "ConfigMap", "shared"⟩], []⟩⟩
          ⟨"new", 1, [RawExt.obj "v1" "ConfigMap" "shared"]⟩).trace :=
  (C3_switch_deletes_before_apply
    ⟨.found ⟨"b", "team-a", "new",
        ⟨"old", 4, [⟨"v1", "ConfigMap", "shared"⟩], []⟩⟩,
      .found ⟨"new", 1, [RawExt.obj "v1" "ConfigMap" "shared"]⟩,
      fun _ => .ok, fun _ => none, .ok, none⟩
    ⟨"b", "team-a", "new", ⟨"old", 4, [⟨"v1", "ConfigMap", "shared"⟩], []⟩⟩
    ⟨"new", 1, [RawExt.obj "v1" "ConfigMap" "shared"]⟩
    rfl rfl (by decide) (fun r m => by simp)).1

/-- C4: when the referenced class is not found, the version-2 pass deletes
every resource in the binding's applied-resource set (a not-found deletion
counting as success), then deletes the binding itself, then records a
`CleanedUp` event, and returns no error. Stated under the assumption that
no deletion fails hard. -/
theorem C4_class_not_found_cleanup (env : BindingEnv)
    (binding : NamespaceClassBinding)
    (hb : env.getBinding = .found binding)
    (hc : env.getClass = .notFound)
    (hdel : ∀ r m, env.del r ≠ .fail m)
    (hdb : ∀ m, env.delBinding ≠ .fail m) :
    V2.Reconcile env =
      { trace := binding.status.appliedResources.map StoreAction.delRes ++
          [.delBinding, .event "CleanedUp"],
        err := none } := by
  have hold : deleteOldResources env.del binding =
      (binding.status.appliedResources, none) :=
    deleteOldResources_no_fail env.del binding (fun r _ m => hdel r m)
  cases hdb2 : env.delBinding with
  | fail m => exact absurd hdb2 (hdb m)
  | ok =>
    simp [V2.Reconcile, hb, hc, V2.handleNamespaceClassDeleted, hold, hdb2]
  | notFound =>
    simp [V2.Reconcile, hb, hc, V2.handleNamespaceClassDeleted, hold, hdb2]

theorem C4_witness :
    V2.Reconcile
      ⟨.found ⟨"b", "team-a", "gone",
          ⟨"gone", 2,
            [⟨"v1", "ConfigMap", "app-config"⟩, ⟨"v1", "Secret", "creds"⟩],
            []⟩⟩,
        .notFound, fun _ => .notFound, fun _ => none, .ok, none⟩ =
      { trace :=
          [StoreAction.delRes ⟨"v1", "ConfigMap", "app-config"⟩,
            StoreAction.delRes ⟨"v1", "Secret", "creds"⟩,
            .delBinding, .event "CleanedUp"],
        err := none } := by
  have h := C4_class_not_found_cleanup
    ⟨.found ⟨"b", "team-a", "gone",
        ⟨"gone", 2,
          [⟨"v1", "ConfigMap", "app-config"⟩, ⟨"v1", "Secret", "creds"⟩],
          []⟩⟩,
      .notFound, fun _ => .notFound, fun _ => none, .ok, none⟩
    ⟨"b", "team-a", "gone",
      ⟨"gone", 2,
        [⟨"v1", "ConfigMap", "app-config"⟩, ⟨"v1", "Secret", "creds"⟩],
        []⟩⟩
    rfl rfl (fun r m => by simp) (fun m => by simp)
  rw [h]
  rfl

theorem find_map_replace (conds : List Condition) (c : Condition)
    (hs : (conds.find? (fun old => old.ctype == c.ctype)).isSome) :
    (conds.map (fun old => if old.ctype == c.ctype then c else old)).find?
      (fun x => x.ctype == c.ctype) = some c := by
  induction conds with
  | nil => simp at hs
  | cons old rest ih =>
    by_cases h0 : (old.ctype == c.ctype) = true
    · simp only [List.map_cons, h0, if_true]
      exact List.find?_cons_of_pos _ (by simp)
    · have h0' : (old.ctype == c.ctype) = false := by
        simpa using h0
      simp only [List.map_cons, h0', Bool.false_eq_true, if_false]
      rw [List.find?_cons_of_neg _ (by simp [h0'])]
      rw [List.find?_cons_of_neg _ (by simp [h0'])] at hs
      exact ih hs

theorem find_append_single (conds : List Condition) (c : Condition)
    (hn : conds.find? (fun old => old.ctype == c.ctype) = none) :
    (conds ++ [c]).find? (fun x => x.ctype == c.ctype) = some c := by
  induction conds with
  | nil => exact List.find?_cons_of_pos _ (by simp)
  | cons old rest ih =>
    rw [List.find?_cons] at hn
    cases h0 : (old.ctype == c.ctype) with
    | true => simp [h0] at hn
    | false =>
      simp only [h0] at hn
      rw [List.cons_append, List.find?_cons_of_neg _ (by simp [h0])]
      exact ih hn


theorem setCondition_of_none (conds : List Condition) (t : String) (s : Bool)
    (r m : String) (hf : findStatusCondition conds t = none) :
    setCondition conds t s r m = setStatusCondition conds ⟨t, s, r, m⟩ := by
  unfold setCondition
  rw [hf]

theorem setCondition_of_some (conds : List Condition) (t : String) (s : Bool)
    (r m : String) (c0 : Condition)
    (hf : findStatusCondition conds t = some c0) :
    setCondition conds t s r m =
      if c0.status == s && c0.reason == r && c0.message == m then conds
      else setStatusCondition conds ⟨t, s, r, m⟩ := by
  unfold setCondition
  rw [hf]

theorem setStatusCondition_of_isSome (conds : List Condition) (c : Condition)
    (hs : (conds.find? (fun old => old.ctype == c.ctype)).isSome = true) :
    setStatusCondition conds c =
      conds.map (fun old => if old.ctype == c.ctype then c else old) := by
  unfold setStatusCondition
  rw [if_pos hs]

theorem setStatusCondition_of_find_none (conds : List Condition) (c : Condition)
    (hn : conds.find? (fun old => old.ctype == c.ctype) = none) :
    setStatusCondition conds c = conds ++ [c] := by
  unfold setStatusCondition
  rw [hn]
  rfl

theorem findStatusCondition_setCondition (conds : List Condition)
    (t : String) (s : Bool) (r m : String) :
    findStatusCondition (setCondition conds t s r m) t = some ⟨t, s, r, m⟩ := by
  cases hf : findStatusCondition conds t with
  | none =>
    have hn : conds.find?
        (fun old => old.ctype == (⟨t, s, r, m⟩ : Condition).ctype) = none := hf
    rw [setCondition_of_none conds t s r m hf,
      setStatusCondition_of_find_none conds _ hn]
    unfold findStatusCondition
    exact find_append_single conds ⟨t, s, r, m⟩ hn
  | some c0 =>
    have hf' : conds.find? (fun c => c.ctype == t) = some c0 := hf
    rw [setCondition_of_some conds t s r m c0 hf]
    by_cases hsame :
        (c0.status == s && c0.reason == r && c0.message == m) = true
    · rw [if_pos hsame]
      have hct : c0.ctype = t := by
        simpa using List.find?_some hf'
      have hc0 : c0 = ⟨t, s, r, m⟩ := by
        simp only [Bool.and_eq_true, beq_iff_eq] at hsame
        cases c0
        simp_all
      rw [← hc0]
      exact hf
    · rw [if_neg hsame]
      have hs : (conds.find?
          (fun old => old.ctype == (⟨t, s, r, m⟩ : Condition).ctype)).isSome = true := by
        have : conds.find?
            (fun old => old.ctype == (⟨t, s, r, m⟩ : Condition).ctype) = some c0 := hf'
        rw [this]
        rfl
      rw [setStatusCondition_of_isSome conds _ hs]
      unfold findStatusCondition
      exact find_map_replace conds ⟨t, s, r, m⟩ hs

theorem mem_setStatusCondition_of_ne (conds : List Condition)
    (cNew c : Condition) (hc : c ∈ setStatusCondition conds cNew)
    (hne : c.ctype ≠ cNew.ctype) : c ∈ conds := by
  by_cases hs : (conds.find? (fun old => old.ctype == cNew.ctype)).isSome = true
  · rw [setStatusCondition_of_isSome conds cNew hs] at hc
    rcases List.mem_map.mp hc with ⟨old, hold, heq⟩
    by_cases h0 : (old.ctype == cNew.ctype) = true
    · rw [if_pos h0] at heq
      exact absurd (by rw [← heq]) hne
    · rw [if_neg h0] at heq
      exact heq ▸ hold
  · have hn : conds.find? (fun old => old.ctype == cNew.ctype) = none :=
      Option.not_isSome_iff_eq_none.mp (by simpa using hs)
    rw [setStatusCondition_of_find_none conds cNew hn] at hc
    rcases List.mem_append.mp hc with h | h
    · exact h
    · have hcc : c = cNew := by simpa using h
      exact absurd (by rw [hcc]) hne

theorem mem_setCondition_of_ne (conds : List Condition) (t : String)
    (s : Bool) (r m : String) (c : Condition)
    (hc : c ∈ setCondition conds t s r m) (hne : c.ctype ≠ t) : c ∈ conds := by
  cases hf : findStatusCondition conds t with
  | none =>
    rw [setCondition_of_none conds t s r m hf] at hc
    exact mem_setStatusCondition_of_ne conds ⟨t, s, r, m⟩ c hc hne
  | some c0 =>
    rw [setCondition_of_some conds t s r m c0 hf] at hc
    by_cases hsame :
        (c0.status == s && c0.reason == r && c0.message == m) = true
    · rw [if_pos hsame] at hc
      exact hc
    · rw [if_neg hsame] at hc
      exact mem_setStatusCondition_of_ne conds ⟨t, s, r, m⟩ c hc hne

/-- C1: a version-1 pass that reaches the work phase (not up to date) and
suffers no prune or apply failure commits exactly one status write, which
sets the observed class name and generation to the fetched class's name and
generation and the applied-resource set to exactly the descriptors of the
resources the apply step succeeded on, in apply order — and that set equals
the resource set described by the fetched class's resource list. -/
theorem C1_success_commit (env : BindingEnv)
    (binding : NamespaceClassBinding) (cls : NamespaceClass)
    (dels aps : List AppliedResource)
    (hb : env.getBinding = .found binding)
    (hc : env.getClass = .found cls)
    (hstale : (binding.status.observedClassGeneration == cls.generation &&
      binding.status.observedClassName == cls.name) = false)
    (hprune : pruneResources env.del binding cls = (dels, none))
    (happly : applyResourcesV1 env.patch cls.resources = (aps, none)) :
    statusWritesOf (V1.Reconcile env) =
      [.v1Full cls.name cls.generation aps
        (setCondition binding.status.conditions "Ready" true "ReconcileSuccess"
          ("Successfully applied " ++ toString aps.length ++
            " resources from class " ++ cls.name))] ∧
    aps = describedResources cls.resources := by
  constructor
  · cases hsr : env.statusResult with
    | none =>
      simp [statusWritesOf, statusWriteOfAction, V1.Reconcile, hb, hc, hstale,
        hprune, happly, hsr, filterMap_statusWrite_delRes,
        filterMap_statusWrite_applyRes]
    | some e =>
      simp [statusWritesOf, statusWriteOfAction, V1.Reconcile, hb, hc, hstale,
        hprune, happly, hsr, filterMap_statusWrite_delRes,
        filterMap_statusWrite_applyRes]
  · exact applyResourcesV1_ok env.patch cls.resources aps happly

theorem C1_witness :
    statusWritesOf (V1.Reconcile
      ⟨.found ⟨"b", "team-a", "gold",
          ⟨"gold", 1, [⟨"v1", "ConfigMap", "old"⟩], []⟩⟩,
        .found ⟨"gold", 2,
          [RawExt.obj "v1" "ConfigMap" "a", RawExt.obj "v1" "ConfigMap" "b"]⟩,
        fun _ => .ok, fun _ => none, .ok, none⟩) =
      [.v1Full "gold" 2
        [⟨"v1", "ConfigMap", "a"⟩, ⟨"v1", "ConfigMap", "b"⟩]
        (setCondition [] "Ready" true "ReconcileSuccess"
          ("Successfully applied " ++
            toString (([⟨"v1", "ConfigMap", "a"⟩,
              ⟨"v1", "ConfigMap", "b"⟩] : List AppliedResource)).length ++
            " resources from class " ++ "gold"))] ∧
    ([⟨"v1", "ConfigMap", "a"⟩, ⟨"v1", "ConfigMap", "b"⟩] :
        List AppliedResource) =
      describedResources
        [RawExt.obj "v1" "ConfigMap" "a", RawExt.obj "v1" "ConfigMap" "b"] :=
  C1_success_commit
    ⟨.found ⟨"b", "team-a", "gold",
        ⟨"gold", 1, [⟨"v1", "ConfigMap", "old"⟩], []⟩⟩,
      .found ⟨"gold", 2,
        [RawExt.obj "v1" "ConfigMap" "a", RawExt.obj "v1" "ConfigMap" "b"]⟩,
      fun _ => .ok, fun _ => none, .ok, none⟩
    ⟨"b", "team-a", "gold", ⟨"gold", 1, [⟨"v1", "ConfigMap", "old"⟩], []⟩⟩
    ⟨"gold", 2, [RawExt.obj "v1" "ConfigMap" "a", RawExt.obj "v1" "ConfigMap" "b"]⟩
    [⟨"v1", "ConfigMap", "old"⟩]
    [⟨"v1", "ConfigMap", "a"⟩, ⟨"v1", "ConfigMap", "b"⟩]
    rfl rfl (by decide) (by decide) (by decide)

/-- C9: a version-1 pass aborted by a prune failure or an apply failure
issues exactly one status write, and that write touches only the condition
list (the observed class name, observed generation and previous
applied-resource set are not part of the mutation): the Ready condition is
set to false with reason `PruneFailed` / `ApplyFailed` and a message
embedding the underlying error, every condition of another type is carried
over unchanged, and the pass returns the underlying error. -/
theorem C9_abort_only_condition_write (env : BindingEnv)
    (binding : NamespaceClassBinding) (cls : NamespaceClass)
    (hb : env.getBinding = .found binding)
    (hc : env.getClass = .found cls)
    (hstale : (binding.status.observedClassGeneration == cls.generation &&
      binding.status.observedClassName == cls.name) = false) :
    (∀ dels e, pruneResources env.del binding cls = (dels, some e) →
      statusWritesOf (V1.Reconcile env) =
        [.condsOnly (setCondition binding.status.conditions "Ready" false
          "PruneFailed" ("Failed to prune resources: " ++ e))] ∧
      findStatusCondition (setCondition binding.status.conditions "Ready" false
          "PruneFailed" ("Failed to prune resources: " ++ e)) "Ready" =
        some ⟨"Ready", false, "PruneFailed", "Failed to prune resources: " ++ e⟩ ∧
      (∀ c ∈ setCondition binding.status.conditions "Ready" false "PruneFailed"
          ("Failed to prune resources: " ++ e),
        c.ctype ≠ "Ready" → c ∈ binding.status.conditions) ∧
      (V1.Reconcile env).err = some e) ∧
    (∀ dels aps e, pruneResources env.del binding cls = (dels, none) →
      applyResourcesV1 env.patch cls.resources = (aps, some e) →
      statusWritesOf (V1.Reconcile env) =
        [.condsOnly (setCondition binding.status.conditions "Ready" false
          "ApplyFailed" ("Failed to apply resources: " ++ e))] ∧
      findStatusCondition (setCondition binding.status.conditions "Ready" false
          "ApplyFailed" ("Failed to apply resources: " ++ e)) "Ready" =
        some ⟨"Ready", false, "ApplyFailed", "Failed to apply resources: " ++ e⟩ ∧
      (∀ c ∈ setCondition binding.status.conditions "Ready" false "ApplyFailed"
          ("Failed to apply resources: " ++ e),
        c.ctype ≠ "Ready" → c ∈ binding.status.conditions) ∧
      (V1.Reconcile env).err = some e) := by
  constructor
  · intro dels e hprune
    refine ⟨?_, findStatusCondition_setCondition _ _ _ _ _,
      fun c hc0 hne => mem_setCondition_of_ne _ _ _ _ _ c hc0 hne, ?_⟩
    · simp [statusWritesOf, statusWriteOfAction, V1.Reconcile, hb, hc, hstale,
        hprune, filterMap_statusWrite_delRes]
    · simp [V1.Reconcile, hb, hc, hstale, hprune]
  · intro dels aps e hprune happly
    refine ⟨?_, findStatusCondition_setCondition _ _ _ _ _,
      fun c hc0 hne => mem_setCondition_of_ne _ _ _ _ _ c hc0 hne, ?_⟩
    · simp [statusWritesOf, statusWriteOfAction, V1.Reconcile, hb, hc, hstale,
        hprune, happly, filterMap_statusWrite_delRes,
        filterMap_statusWrite_applyRes]
    · simp [V1.Reconcile, hb, hc, hstale, hprune, happly]

theorem C9_witness :
    statusWritesOf (V1.Reconcile
      ⟨.found ⟨"b", "team-a", "gold",
          ⟨"gold", 1, [⟨"v1", "ConfigMap", "old"⟩], []⟩⟩,
        .found ⟨"gold", 2, []⟩,
        fun _ => .fail "boom", fun _ => none, .ok, none⟩) =
      [.condsOnly (setCondition [] "Ready" false "PruneFailed"
        ("Failed to prune resources: " ++
          "failed to delete ConfigMap/old: boom"))] ∧
    findStatusCondition (setCondition [] "Ready" false "PruneFailed"
        ("Failed to prune resources: " ++
          "failed to delete ConfigMap/old: boom")) "Ready" =
      some ⟨"Ready", false, "PruneFailed",
        "Failed to prune resources: " ++
          "failed to delete ConfigMap/old: boom"⟩ ∧
    (∀ c ∈ setCondition [] "Ready" false "PruneFailed"
        ("Failed to prune resources: " ++
          "failed to delete ConfigMap/old: boom"),
      c.ctype ≠ "Ready" → c ∈ ([] : List Condition)) ∧
    (V1.Reconcile
      ⟨.found ⟨"b", "team-a", "gold",
          ⟨"gold", 1, [⟨"v1", "ConfigMap", "old"⟩], []⟩⟩,
        .found ⟨"gold", 2, []⟩,
        fun _ => .fail "boom", fun _ => none, .ok, none⟩).err =
      some "failed to delete ConfigMap/old: boom" :=
  (C9_abort_only_condition_write
    ⟨.found ⟨"b", "team-a", "gold",
        ⟨"gold", 1, [⟨"v1", "ConfigMap", "old"⟩], []⟩⟩,
      .found ⟨"gold", 2, []⟩,
      fun _ => .fail "boom", fun _ => none, .ok, none⟩
    ⟨"b", "team-a", "gold", ⟨"gold", 1, [⟨"v1", "ConfigMap", "old"⟩], []⟩⟩
    ⟨"gold", 2, []⟩ rfl rfl (by decide)).1
    [⟨"v1", "ConfigMap", "old"⟩] "failed to delete ConfigMap/old: boom"
    (by decide)
